import Mathlib

/-!
Shallow embedding of the navigation core of `src/main.go` (TermWar/ConnectionManager):
the `App` struct's navigational state and every function that mutates it.
UI widgets (tview components) and rendering calls (`updateMainPanel` and friends)
only redraw; they never change the fields modelled here, so they are dropped.
`a.app.Stop()` is modelled by setting the `quitted` flag.
-/

namespace ConnectionManager

/-- Go `AppState` (src/main.go:13): `Normal` or `Edit`. -/
inductive AppState where
  | Normal
  | Edit
deriving DecidableEq, Repr

/-- Keyboard events reaching `handleKeyEvent`: the tcell keys the code switches
on, with `rune c` for `tcell.KeyRune` carrying character `c`, and `other` for
every remaining tcell key (which falls through all switches unhandled). -/
inductive Key where
  | up
  | down
  | left
  | right
  | enter
  | esc
  | rune (c : Char)
  | other
deriving DecidableEq, Repr

/-- The navigational state of the Go `App` struct (src/main.go:21): every
field that the key-handling code reads or writes. `expandedNodes` models the
Go `map[string]bool` as an association list where the newest binding wins. -/
structure App where
  state : AppState
  modules : List String
  currentModule : Nat
  hoveredModule : Nat
  showingConfirm : Bool
  inTreeView : Bool
  selectedProject : Nat
  selectedEnv : Nat
  selectedConn : Nat
  treeLevel : Nat
  expandedNodes : List (String × Bool)
  quitted : Bool
deriving DecidableEq, Repr

/-- Reading `a.expandedNodes[k]` in Go: a missing key yields `false`. -/
def lookupExpanded (m : List (String × Bool)) (k : String) : Bool :=
  match m.find? (fun p => p.1 == k) with
  | some p => p.2
  | none => false

/-- Writing `a.expandedNodes[k] = v` in Go: cons a binding; `lookupExpanded`
takes the newest one. -/
def storeExpanded (m : List (String × Bool)) (k : String) (v : Bool) :
    List (String × Bool) :=
  (k, v) :: m

/-- Go `NewApp` (src/main.go:47), navigational fields only. -/
def NewApp : App where
  state := AppState.Normal
  modules := ["SSH", "MySQL", "PostgreSQL", "Redis"]
  currentModule := 0
  hoveredModule := 0
  showingConfirm := false
  inTreeView := false
  selectedProject := 0
  selectedEnv := 0
  selectedConn := 0
  treeLevel := 0
  expandedNodes := []
  quitted := false

/-- Go `a.modules[a.currentModule]`, total (Go would panic out of range; every
reachable state has `currentModule < 4`, where the two agree). -/
def currentModuleName (a : App) : String :=
  a.modules.getD a.currentModule ""

/-- Go `Project` struct (src/main.go:328). -/
structure Project where
  Name : String
deriving DecidableEq, Repr

/-- Go `Environment` struct (src/main.go:332). -/
structure Environment where
  Name : String
deriving DecidableEq, Repr

/-- Go `Connection` struct (src/main.go:336). -/
structure Connection where
  Name : String
  Status : String
deriving DecidableEq, Repr

/-- Go `getProjectList` (src/main.go:342). -/
def getProjectList (a : App) : List Project :=
  match currentModuleName a with
  | "SSH" => [⟨"Web服务器项目"⟩, ⟨"数据库项目"⟩, ⟨"开发环境项目"⟩]
  | "MySQL" => [⟨"生产数据库"⟩, ⟨"分析数据库"⟩, ⟨"测试数据库"⟩]
  | "PostgreSQL" => [⟨"主业务数据库"⟩, ⟨"报表数据库"⟩, ⟨"备份数据库"⟩]
  | "Redis" => [⟨"缓存集群"⟩, ⟨"会话存储"⟩, ⟨"消息队列"⟩]
  | _ => []

/-- Go `getEnvironmentList` (src/main.go:374): the third project (index 2) has
one environment, every other index two. -/
def getEnvironmentList (projectIndex : Nat) : List Environment :=
  if projectIndex = 2 then [⟨"开发环境"⟩]
  else [⟨"生产环境"⟩, ⟨"测试环境"⟩]

/-- Go `getConnectionList` (src/main.go:385): three connections, named after
the current module, for every project/environment pair. -/
def getConnectionList (a : App) (projectIndex envIndex : Nat) : List Connection :=
  [⟨currentModuleName a ++ "-01", "connected"⟩,
   ⟨currentModuleName a ++ "-02", "disconnected"⟩,
   ⟨currentModuleName a ++ "-03", "connecting"⟩]

/-- Go `getProjectCount` (src/main.go:695). -/
def getProjectCount (a : App) : Nat :=
  (getProjectList a).length

/-- Go `getEnvironmentCount` (src/main.go:700). -/
def getEnvironmentCount (a : App) : Nat :=
  (getEnvironmentList a.selectedProject).length

/-- Go `getConnectionCount` (src/main.go:705). -/
def getConnectionCount (a : App) : Nat :=
  (getConnectionList a a.selectedProject a.selectedEnv).length

/-- Go `hasConnections` (src/main.go:710). -/
def hasConnections (a : App) : Bool :=
  decide (0 < getConnectionCount a)

/-- The key `fmt.Sprintf("%s-proj-%d", module, project)` used by
`renderTreeView`, `collapseOrMoveUp` and `expandOrMoveDown`. -/
def projectKeyStr (a : App) : String :=
  currentModuleName a ++ "-proj-" ++ toString a.selectedProject

/-- The key `fmt.Sprintf("%s-proj-%d-env-%d", module, project, env)` used by
`renderTreeView`, `collapseOrMoveUp` and `expandOrMoveDown`. -/
def envKeyStr (a : App) : String :=
  currentModuleName a ++ "-proj-" ++ toString a.selectedProject
    ++ "-env-" ++ toString a.selectedEnv

/-- Go `getCurrentNodeKey` (src/main.go:690):
`fmt.Sprintf("%s-%d-%d-%d", module, project, env, conn)`. -/
def getCurrentNodeKey (a : App) : String :=
  currentModuleName a ++ "-" ++ toString a.selectedProject
    ++ "-" ++ toString a.selectedEnv ++ "-" ++ toString a.selectedConn

/-- Go `moveTreeUp` (src/main.go:579). -/
def moveTreeUp (a : App) : App :=
  match a.treeLevel with
  | 0 =>
    if 0 < a.selectedProject then { a with selectedProject := a.selectedProject - 1 }
    else a
  | 1 =>
    if 0 < a.selectedEnv then { a with selectedEnv := a.selectedEnv - 1 }
    else { a with treeLevel := 0 }
  | 2 =>
    if 0 < a.selectedConn then { a with selectedConn := a.selectedConn - 1 }
    else { a with treeLevel := 1 }
  | _ => a

/-- Go `moveTreeDown` (src/main.go:604). Go computes `maxProjects := count - 1`
with int subtraction; counts and indices are nonnegative, and for `count = 0`
the int guard `idx < -1` and the Nat guard `idx < 0` are both false, so Nat
truncated subtraction is faithful. -/
def moveTreeDown (a : App) : App :=
  match a.treeLevel with
  | 0 =>
    if a.selectedProject < getProjectCount a - 1 then
      { a with selectedProject := a.selectedProject + 1 }
    else a
  | 1 =>
    if a.selectedEnv < getEnvironmentCount a - 1 then
      { a with selectedEnv := a.selectedEnv + 1 }
    else if hasConnections a then
      { a with treeLevel := 2, selectedConn := 0 }
    else a
  | 2 =>
    if a.selectedConn < getConnectionCount a - 1 then
      { a with selectedConn := a.selectedConn + 1 }
    else a
  | _ => a

/-- Go `exitTreeView` (src/main.go:527): only `inTreeView` changes. -/
def exitTreeView (a : App) : App :=
  { a with inTreeView := false }

/-- Go `collapseOrMoveUp` (src/main.go:631). -/
def collapseOrMoveUp (a : App) : App :=
  match a.treeLevel with
  | 2 =>
    { a with treeLevel := 1,
             expandedNodes := storeExpanded a.expandedNodes (envKeyStr a) false }
  | 1 =>
    { a with treeLevel := 0,
             expandedNodes := storeExpanded a.expandedNodes (projectKeyStr a) false }
  | 0 => exitTreeView a
  | _ => a

/-- Go `expandOrMoveDown` (src/main.go:651). -/
def expandOrMoveDown (a : App) : App :=
  match a.treeLevel with
  | 0 =>
    let b := { a with
      expandedNodes := storeExpanded a.expandedNodes (projectKeyStr a) true }
    if 0 < getEnvironmentCount b then { b with treeLevel := 1, selectedEnv := 0 }
    else b
  | 1 =>
    let b := { a with
      expandedNodes := storeExpanded a.expandedNodes (envKeyStr a) true }
    if hasConnections b then { b with treeLevel := 2, selectedConn := 0 }
    else b
  | _ => a

/-- Go `toggleExpansion` (src/main.go:677). -/
def toggleExpansion (a : App) : App :=
  let k := getCurrentNodeKey a
  let v := lookupExpanded a.expandedNodes k
  { a with expandedNodes := storeExpanded a.expandedNodes k (!v) }

/-- Go `activateTreeItem` (src/main.go:684): only refreshes the status bar. -/
def activateTreeItem (a : App) : App :=
  a

/-- Go `moveToPreviousHover` (src/main.go:498). -/
def moveToPreviousHover (a : App) : App :=
  if 0 < a.hoveredModule then { a with hoveredModule := a.hoveredModule - 1 }
  else a

/-- Go `moveToNextHover` (src/main.go:506). -/
def moveToNextHover (a : App) : App :=
  if a.hoveredModule < a.modules.length - 1 then
    { a with hoveredModule := a.hoveredModule + 1 }
  else a

/-- Go `enterTreeView` (src/main.go:514). -/
def enterTreeView (a : App) : App :=
  { a with currentModule := a.hoveredModule,
           inTreeView := true,
           treeLevel := 0,
           selectedProject := 0,
           selectedEnv := 0,
           selectedConn := 0 }

/-- Go `showExitConfirmation` (src/main.go:485): only `showingConfirm` and the
displayed root change. -/
def showExitConfirmation (a : App) : App :=
  { a with showingConfirm := true }

/-- Go `hideExitConfirmation` (src/main.go:492). -/
def hideExitConfirmation (a : App) : App :=
  { a with showingConfirm := false }

/-- Go `handleTreeNavigation` (src/main.go:533). -/
def handleTreeNavigation (a : App) (e : Key) : App :=
  match e with
  | Key.up => moveTreeUp a
  | Key.down => moveTreeDown a
  | Key.left => collapseOrMoveUp a
  | Key.right => expandOrMoveDown a
  | Key.esc => exitTreeView a
  | Key.enter => activateTreeItem a
  | Key.rune c =>
    if c = 'k' ∨ c = 'K' then moveTreeUp a
    else if c = 'j' ∨ c = 'J' then moveTreeDown a
    else if c = 'h' ∨ c = 'H' then collapseOrMoveUp a
    else if c = 'l' ∨ c = 'L' then expandOrMoveDown a
    else if c = 'q' ∨ c = 'Q' then exitTreeView a
    else if c = ' ' then toggleExpansion a
    else a
  | Key.other => a

/-- Go `handleKeyEvent` (src/main.go:426): the full input dispatcher.
`a.app.Stop()` becomes `quitted := true`; returning the event unhandled
leaves the state unchanged. -/
def handleKeyEvent (a : App) (e : Key) : App :=
  if a.showingConfirm then
    match e with
    | Key.rune c =>
      if c = 'y' ∨ c = 'Y' then { a with quitted := true }
      else if c = 'n' ∨ c = 'N' then hideExitConfirmation a
      else a
    | _ => a
  else if a.state ≠ AppState.Normal then a
  else if a.inTreeView then handleTreeNavigation a e
  else
    match e with
    | Key.left => moveToPreviousHover a
    | Key.right => moveToNextHover a
    | Key.enter => enterTreeView a
    | Key.rune c =>
      if c = 'h' ∨ c = 'H' then moveToPreviousHover a
      else if c = 'l' ∨ c = 'L' then moveToNextHover a
      else if c = ' ' then enterTreeView a
      else if c = 'q' ∨ c = 'Q' then showExitConfirmation a
      else a
    | _ => a

/-- States reachable from startup by any sequence of key events. -/
inductive Reachable : App → Prop where
  | init : Reachable NewApp
  | step (a : App) (e : Key) : Reachable a → Reachable (handleKeyEvent a e)

/-! ### Spec transcriptions, used only to compare the code against the claims -/

/-- Transcription of the claimed `moveDown()` behavior (spec §4.2), for
comparison with the code's `moveTreeDown`: increment below the last sibling;
otherwise, when the level is below Connection and the next level has at least
one child for the current path, descend with child index 0. -/
def moveDownClaimed (a : App) : App :=
  match a.treeLevel with
  | 0 =>
    if a.selectedProject < getProjectCount a - 1 then
      { a with selectedProject := a.selectedProject + 1 }
    else if 0 < getEnvironmentCount a then
      { a with treeLevel := 1, selectedEnv := 0 }
    else a
  | 1 =>
    if a.selectedEnv < getEnvironmentCount a - 1 then
      { a with selectedEnv := a.selectedEnv + 1 }
    else if 0 < getConnectionCount a then
      { a with treeLevel := 2, selectedConn := 0 }
    else a
  | _ =>
    if a.selectedConn < getConnectionCount a - 1 then
      { a with selectedConn := a.selectedConn + 1 }
    else a

/-- The amended `moveDown()`: increment below the last sibling; auto-descent
happens only from the Environment level (to Connection, when connections
exist); at the Project level the last project is a no-op even when the project
has environments. -/
def moveDownAmended (a : App) : App :=
  if a.treeLevel = 0 then
    if a.selectedProject + 1 < getProjectCount a then
      { a with selectedProject := a.selectedProject + 1 }
    else a
  else if a.treeLevel = 1 then
    if a.selectedEnv + 1 < getEnvironmentCount a then
      { a with selectedEnv := a.selectedEnv + 1 }
    else if 0 < getConnectionCount a then
      { a with treeLevel := 2, selectedConn := 0 }
    else a
  else if a.treeLevel = 2 then
    if a.selectedConn + 1 < getConnectionCount a then
      { a with selectedConn := a.selectedConn + 1 }
    else a
  else a

/-- The index at the current level, as the spec speaks of it. -/
def currentIndex (a : App) : Nat :=
  match a.treeLevel with
  | 0 => a.selectedProject
  | 1 => a.selectedEnv
  | _ => a.selectedConn

/-- Replacing the index at the current level. -/
def withCurrentIndex (a : App) (n : Nat) : App :=
  match a.treeLevel with
  | 0 => { a with selectedProject := n }
  | 1 => { a with selectedEnv := n }
  | _ => { a with selectedConn := n }

/-- Transcription of the spec's `moveUp()` (spec §4.2), for comparison with
the code's `moveTreeUp`: decrement a positive index; otherwise ascend one
level when above Project, leaving every index unchanged; otherwise no-op. -/
def moveUpSpec (a : App) : App :=
  if 0 < currentIndex a then withCurrentIndex a (currentIndex a - 1)
  else if 0 < a.treeLevel then { a with treeLevel := a.treeLevel - 1 }
  else a

/-! ### Concrete states used by scenarios, counterexamples and witnesses -/

/-- The tree state right after hovering to MySQL (module index 1) and
committing into tree mode: level Project, all indices 0. -/
def mysql0 : App := enterTreeView (moveToNextHover NewApp)

/-- `mysql0` after two `moveTreeDown` calls: the last MySQL project
(index 2, the one with a single environment) is highlighted. -/
def mysqlP2 : App := moveTreeDown (moveTreeDown mysql0)

/-- `mysql0` after descending into environments, moving to the second
environment, then ascending back to the project level: `selectedEnv` is
left at 1 while the level is Project again. -/
def mysqlStaleEnv : App := collapseOrMoveUp (moveTreeDown (expandOrMoveDown mysql0))

/-- `mysql0` after descending twice: a Connection-level state. -/
def mysqlConn : App := expandOrMoveDown (expandOrMoveDown mysql0)

/-! ### Helper lemmas about the data provider and the expansion store -/

theorem getEnvironmentCount_pos (a : App) : 0 < getEnvironmentCount a := by
  unfold getEnvironmentCount getEnvironmentList
  split <;> simp

theorem getConnectionCount_eq (a : App) : getConnectionCount a = 3 := rfl

theorem getConnectionCount_pos (a : App) : 0 < getConnectionCount a := by
  rw [getConnectionCount_eq]
  omega

theorem hasConnections_eq (a : App) : hasConnections a = true := rfl

theorem lookupExpanded_store (m : List (String × Bool)) (k k' : String) (v : Bool) :
    lookupExpanded (storeExpanded m k v) k' =
      if k' = k then v else lookupExpanded m k' := by
  unfold lookupExpanded storeExpanded
  by_cases h : k' = k
  · subst h
    rw [List.find?_cons_of_pos _ (by simp)]
    simp
  · rw [List.find?_cons_of_neg _ (by simp [Ne.symm h])]
    simp [h]

theorem moveTreeUp_level0 (a : App) (h : a.treeLevel = 0) :
    moveTreeUp a =
      if 0 < a.selectedProject then { a with selectedProject := a.selectedProject - 1 }
      else a := by
  unfold moveTreeUp
  rw [h]

theorem moveTreeUp_level1 (a : App) (h : a.treeLevel = 1) :
    moveTreeUp a =
      if 0 < a.selectedEnv then { a with selectedEnv := a.selectedEnv - 1 }
      else { a with treeLevel := 0 } := by
  unfold moveTreeUp
  rw [h]

theorem moveTreeUp_level2 (a : App) (h : a.treeLevel = 2) :
    moveTreeUp a =
      if 0 < a.selectedConn then { a with selectedConn := a.selectedConn - 1 }
      else { a with treeLevel := 1 } := by
  unfold moveTreeUp
  rw [h]

theorem moveTreeDown_level0 (a : App) (h : a.treeLevel = 0) :
    moveTreeDown a =
      if a.selectedProject < getProjectCount a - 1 then
        { a with selectedProject := a.selectedProject + 1 }
      else a := by
  unfold moveTreeDown
  rw [h]

theorem moveTreeDown_level1 (a : App) (h : a.treeLevel = 1) :
    moveTreeDown a =
      if a.selectedEnv < getEnvironmentCount a - 1 then
        { a with selectedEnv := a.selectedEnv + 1 }
      else { a with treeLevel := 2, selectedConn := 0 } := by
  unfold moveTreeDown
  rw [h]
  simp [hasConnections_eq]

theorem moveTreeDown_level2 (a : App) (h : a.treeLevel = 2) :
    moveTreeDown a =
      if a.selectedConn < getConnectionCount a - 1 then
        { a with selectedConn := a.selectedConn + 1 }
      else a := by
  unfold moveTreeDown
  rw [h]

theorem expandOrMoveDown_level0 (a : App) (h : a.treeLevel = 0) :
    expandOrMoveDown a =
      { a with treeLevel := 1, selectedEnv := 0,
               expandedNodes := storeExpanded a.expandedNodes (projectKeyStr a) true } := by
  unfold expandOrMoveDown
  rw [h]
  simp [getEnvironmentCount_pos]

theorem expandOrMoveDown_level1 (a : App) (h : a.treeLevel = 1) :
    expandOrMoveDown a =
      { a with treeLevel := 2, selectedConn := 0,
               expandedNodes := storeExpanded a.expandedNodes (envKeyStr a) true } := by
  unfold expandOrMoveDown
  rw [h]
  simp [hasConnections_eq]

theorem collapseOrMoveUp_level1 (a : App) (h : a.treeLevel = 1) :
    collapseOrMoveUp a =
      { a with treeLevel := 0,
               expandedNodes := storeExpanded a.expandedNodes (projectKeyStr a) false } := by
  unfold collapseOrMoveUp
  rw [h]

theorem collapseOrMoveUp_level2 (a : App) (h : a.treeLevel = 2) :
    collapseOrMoveUp a =
      { a with treeLevel := 1,
               expandedNodes := storeExpanded a.expandedNodes (envKeyStr a) false } := by
  unfold collapseOrMoveUp
  rw [h]

/-! ### The claims -/

/-- C1, counterexample: at the last MySQL project (index 2), which has one
environment, the code's `moveTreeDown` is a no-op and does not descend, while
the claimed behavior (spec §4.2, transcribed as `moveDownClaimed`) descends to
the Environment level with index 0. -/
theorem c1_moveDown_counterexample :
    0 < getEnvironmentCount mysqlP2
    ∧ mysqlP2.treeLevel = 0
    ∧ mysqlP2.selectedProject = getProjectCount mysqlP2 - 1
    ∧ moveTreeDown mysqlP2 = mysqlP2
    ∧ (moveDownClaimed mysqlP2).treeLevel = 1
    ∧ moveTreeDown mysqlP2 ≠ moveDownClaimed mysqlP2 := by decide

/-- C1, amended: `moveTreeDown` increments the index at the current level when
it is below the last sibling; auto-descent happens only from the Environment
level (to Connection with index 0, when connections exist); at the Project
level the last project is a no-op even when that project has environments. -/
theorem c1_moveDown_amended (a : App) : moveTreeDown a = moveDownAmended a := by
  unfold moveTreeDown moveDownAmended
  have h3 : a.treeLevel = 0 ∨ a.treeLevel = 1 ∨ a.treeLevel = 2 ∨
      ∃ n, a.treeLevel = n + 3 := by
    rcases Nat.lt_or_ge a.treeLevel 3 with h | h
    · omega
    · exact Or.inr (Or.inr (Or.inr ⟨a.treeLevel - 3, by omega⟩))
  have hp : (a.selectedProject < getProjectCount a - 1) ↔
      (a.selectedProject + 1 < getProjectCount a) := by omega
  have he : (a.selectedEnv < getEnvironmentCount a - 1) ↔
      (a.selectedEnv + 1 < getEnvironmentCount a) := by
    have := getEnvironmentCount_pos a
    omega
  have hc : (a.selectedConn < getConnectionCount a - 1) ↔
      (a.selectedConn + 1 < getConnectionCount a) := by omega
  rcases h3 with h | h | h | ⟨n, h⟩ <;> rw [h] <;>
    simp [hp, he, hc, hasConnections_eq, getConnectionCount_pos]

/-- C3, counterexample: in the reachable state `mysqlStaleEnv` (Project level,
`selectedEnv` left at 1 after ascending), `moveTreeDown` changes the ancestor
index `selectedProject` from 0 to 1 yet leaves the descendant index
`selectedEnv` at 1 instead of resetting it to 0 as the claim requires. -/
theorem c3_moveDown_counterexample :
    mysqlStaleEnv.treeLevel = 0
    ∧ mysqlStaleEnv.selectedProject = 0
    ∧ mysqlStaleEnv.selectedEnv = 1
    ∧ (moveTreeDown mysqlStaleEnv).selectedProject = 1
    ∧ (moveTreeDown mysqlStaleEnv).selectedEnv = 1 := by decide

/-- C3, amended: moving between sibling projects with `moveTreeUp` or
`moveTreeDown` leaves the descendant indices `selectedEnv` and `selectedConn`
unchanged (no reset); a descendant index is set to 0 only when its level is
entered by a descend operation, as `expandOrMoveDown` does. -/
theorem c3_no_descendant_reset (a : App) (h : a.treeLevel = 0) :
    (moveTreeUp a).selectedEnv = a.selectedEnv
    ∧ (moveTreeUp a).selectedConn = a.selectedConn
    ∧ (moveTreeDown a).selectedEnv = a.selectedEnv
    ∧ (moveTreeDown a).selectedConn = a.selectedConn
    ∧ (expandOrMoveDown a).selectedEnv = 0 := by
  rw [expandOrMoveDown_level0 a h, moveTreeUp_level0 a h, moveTreeDown_level0 a h]
  refine ⟨?_, ?_, ?_, ?_, rfl⟩ <;> split <;> rfl

/-- C3, witness for the amended theorem at the concrete state `mysqlStaleEnv`. -/
theorem c3_no_descendant_reset_witness :
    (moveTreeUp mysqlStaleEnv).selectedEnv = mysqlStaleEnv.selectedEnv
    ∧ (moveTreeUp mysqlStaleEnv).selectedConn = mysqlStaleEnv.selectedConn
    ∧ (moveTreeDown mysqlStaleEnv).selectedEnv = mysqlStaleEnv.selectedEnv
    ∧ (moveTreeDown mysqlStaleEnv).selectedConn = mysqlStaleEnv.selectedConn
    ∧ (expandOrMoveDown mysqlStaleEnv).selectedEnv = 0 :=
  c3_no_descendant_reset mysqlStaleEnv (by decide)

/-- C2, code evaluated at the failing input: in the fresh MySQL tree state the
highlighted node is project 0, whose expansion key — the one
`expandOrMoveDown`/`collapseOrMoveUp` set and clear, and the one rendering
reads — is the string MySQL-proj-0, but `toggleExpansion` flips the flag under
the differently formatted `getCurrentNodeKey` string MySQL-0-0-0 and leaves the
flag under MySQL-proj-0 untouched (level and indices are unchanged, as the
claim also says). -/
theorem c2_toggle_key_mismatch :
    getCurrentNodeKey mysql0 = "MySQL-0-0-0"
    ∧ projectKeyStr mysql0 = "MySQL-proj-0"
    ∧ getCurrentNodeKey mysql0 ≠ projectKeyStr mysql0
    ∧ lookupExpanded (toggleExpansion mysql0).expandedNodes (projectKeyStr mysql0)
        = lookupExpanded mysql0.expandedNodes (projectKeyStr mysql0)
    ∧ lookupExpanded (toggleExpansion mysql0).expandedNodes (getCurrentNodeKey mysql0)
        = true
    ∧ (toggleExpansion mysql0).treeLevel = mysql0.treeLevel
    ∧ (toggleExpansion mysql0).selectedProject = mysql0.selectedProject := by
  decide

/-- C5: the MySQL scenario. From (Project, 0): two `moveTreeDown` calls reach
projects 1 and 2, a third is a no-op; `expandOrMoveDown` then descends to
(Environment, 0); project 2 having one environment with three connections,
`moveTreeDown` from that sole environment descends to (Connection, 0), two
more reach connections 1 and 2, and a fourth is a no-op. -/
theorem c5_mysql_scenario :
    (moveTreeDown mysql0).selectedProject = 1
    ∧ (moveTreeDown mysql0).treeLevel = 0
    ∧ mysqlP2.selectedProject = 2
    ∧ mysqlP2.treeLevel = 0
    ∧ moveTreeDown mysqlP2 = mysqlP2
    ∧ getEnvironmentCount mysqlP2 = 1
    ∧ (expandOrMoveDown mysqlP2).treeLevel = 1
    ∧ (expandOrMoveDown mysqlP2).selectedEnv = 0
    ∧ getConnectionCount (expandOrMoveDown mysqlP2) = 3
    ∧ (moveTreeDown (expandOrMoveDown mysqlP2)).treeLevel = 2
    ∧ (moveTreeDown (expandOrMoveDown mysqlP2)).selectedConn = 0
    ∧ (moveTreeDown (moveTreeDown (expandOrMoveDown mysqlP2))).selectedConn = 1
    ∧ (moveTreeDown (moveTreeDown (moveTreeDown (expandOrMoveDown mysqlP2)))).selectedConn
        = 2
    ∧ moveTreeDown
          (moveTreeDown (moveTreeDown (moveTreeDown (expandOrMoveDown mysqlP2))))
        = moveTreeDown (moveTreeDown (moveTreeDown (expandOrMoveDown mysqlP2))) := by
  decide

/-- C6, counterexample: at the Connection level `expandOrMoveDown` is a no-op
and `collapseOrMoveUp` ascends, so the expand-then-collapse pair does not
restore the level. -/
theorem c6_leaf_counterexample :
    mysqlConn.treeLevel = 2
    ∧ (collapseOrMoveUp (expandOrMoveDown mysqlConn)).treeLevel = 1 := by decide

/-- C6, amended: at the Project and Environment levels (not at the leaf
Connection level, where expand is a no-op and collapse ascends),
`expandOrMoveDown` followed by `collapseOrMoveUp` restores the level and the
index at that level, and the flag cleared by the collapse — the highlighted
node's project or environment key — reads `false` afterwards, whatever it was
before. -/
theorem c6_expand_collapse (a : App) (h : a.treeLevel ≤ 1) :
    (collapseOrMoveUp (expandOrMoveDown a)).treeLevel = a.treeLevel
    ∧ (collapseOrMoveUp (expandOrMoveDown a)).selectedProject = a.selectedProject
    ∧ (a.treeLevel = 1 →
        (collapseOrMoveUp (expandOrMoveDown a)).selectedEnv = a.selectedEnv)
    ∧ lookupExpanded (collapseOrMoveUp (expandOrMoveDown a)).expandedNodes
        (if a.treeLevel = 0 then projectKeyStr a else envKeyStr a) = false := by
  have h2 : a.treeLevel = 0 ∨ a.treeLevel = 1 := by omega
  rcases h2 with h0 | h0
  · rw [expandOrMoveDown_level0 a h0]
    rw [collapseOrMoveUp_level1 _ rfl]
    rw [h0]
    refine ⟨rfl, rfl, by omega, ?_⟩
    rw [if_pos rfl, lookupExpanded_store]
    split
    · rfl
    next hne => exact absurd rfl hne
  · rw [expandOrMoveDown_level1 a h0]
    rw [collapseOrMoveUp_level2 _ rfl]
    rw [h0]
    refine ⟨rfl, rfl, fun _ => rfl, ?_⟩
    rw [if_neg (by omega), lookupExpanded_store]
    split
    · rfl
    next hne => exact absurd rfl hne

/-- C6, witness for the amended theorem: the pair applied at the concrete
Project-level state `mysql0`. -/
theorem c6_expand_collapse_witness :
    (collapseOrMoveUp (expandOrMoveDown mysql0)).treeLevel = mysql0.treeLevel
    ∧ (collapseOrMoveUp (expandOrMoveDown mysql0)).selectedProject
        = mysql0.selectedProject
    ∧ (mysql0.treeLevel = 1 →
        (collapseOrMoveUp (expandOrMoveDown mysql0)).selectedEnv = mysql0.selectedEnv)
    ∧ lookupExpanded (collapseOrMoveUp (expandOrMoveDown mysql0)).expandedNodes
        (if mysql0.treeLevel = 0 then projectKeyStr mysql0 else envKeyStr mysql0)
        = false :=
  c6_expand_collapse mysql0 (by decide)

/-- C8: two `toggleExpansion` calls with no mutation in between restore the
retrieved expansion flag (absent read as `false`) of every key, the
highlighted node's included. -/
theorem c8_toggle_involution (a : App) (k : String) :
    lookupExpanded (toggleExpansion (toggleExpansion a)).expandedNodes k
      = lookupExpanded a.expandedNodes k := by
  have h1 : (toggleExpansion (toggleExpansion a)).expandedNodes
      = storeExpanded
          (storeExpanded a.expandedNodes (getCurrentNodeKey a)
            (!lookupExpanded a.expandedNodes (getCurrentNodeKey a)))
          (getCurrentNodeKey a)
          (!lookupExpanded
            (storeExpanded a.expandedNodes (getCurrentNodeKey a)
              (!lookupExpanded a.expandedNodes (getCurrentNodeKey a)))
            (getCurrentNodeKey a)) := rfl
  have h2 : lookupExpanded
        (storeExpanded a.expandedNodes (getCurrentNodeKey a)
          (!lookupExpanded a.expandedNodes (getCurrentNodeKey a)))
        (getCurrentNodeKey a)
      = !lookupExpanded a.expandedNodes (getCurrentNodeKey a) := by
    rw [lookupExpanded_store, if_pos rfl]
  rw [h1, h2, lookupExpanded_store, lookupExpanded_store]
  by_cases hk : k = getCurrentNodeKey a
  · rw [if_pos hk, Bool.not_not, hk]
  · rw [if_neg hk, if_neg hk]

/-- C9: `moveTreeUp` agrees with the spec's `moveUp()` on every tree level:
decrement a positive index at the current level; otherwise ascend one level
when above Project, all indices unchanged; at (Project, 0) do nothing. -/
theorem c9_moveUp_matches_spec (a : App) (h : a.treeLevel ≤ 2) :
    moveTreeUp a = moveUpSpec a := by
  have h3 : a.treeLevel = 0 ∨ a.treeLevel = 1 ∨ a.treeLevel = 2 := by omega
  rcases h3 with h0 | h0 | h0 <;>
    first
      | rw [moveTreeUp_level0 a h0]
      | rw [moveTreeUp_level1 a h0]
      | rw [moveTreeUp_level2 a h0]
  all_goals
    unfold moveUpSpec currentIndex withCurrentIndex
    rw [h0]
    split <;> simp

/-- C9, witness: the spec comparison applied at the concrete state `mysql0`. -/
theorem c9_moveUp_matches_spec_witness :
    mysql0.treeLevel ≤ 2 ∧ moveTreeUp mysql0 = moveUpSpec mysql0 :=
  ⟨by decide, c9_moveUp_matches_spec mysql0 (by decide)⟩

/-- The state the ConfirmationGate must not disturb: the NavigationCursor
(level and the three indices), the ModuleSelector (hovered and current) and
the ExpansionStore. -/
def coreObs (a : App) :
    (Nat × Nat × Nat × Nat) × (Nat × Nat) × List (String × Bool) :=
  ((a.treeLevel, a.selectedProject, a.selectedEnv, a.selectedConn),
   (a.hoveredModule, a.currentModule),
   a.expandedNodes)

/-- C7: for every state — in particular any browsing state an open actually
fires from — opening the quit confirmation and then cancelling it leaves
cursor, selector and expansion store exactly as they were immediately before
the open; and while the confirmation is pending, every input other than
confirm (y/Y) and cancel (n/N) leaves the whole state unchanged. -/
theorem c7_confirmation_gate (a : App) (e : Key) :
    coreObs (hideExitConfirmation (showExitConfirmation a)) = coreObs a
    ∧ (a.showingConfirm = true →
        (∀ c : Char, e = Key.rune c → c ≠ 'y' ∧ c ≠ 'Y' ∧ c ≠ 'n' ∧ c ≠ 'N') →
        handleKeyEvent a e = a) := by
  refine ⟨rfl, fun hc he => ?_⟩
  unfold handleKeyEvent
  rw [hc]
  cases e
  case rune c =>
    obtain ⟨h1, h2, h3, h4⟩ := he c rfl
    simp [h1, h2, h3, h4]
  all_goals simp

/-- C7, witness: the open-then-cancel pair applied at the startup browsing
state (where `showingConfirm = false`, so an open can occur), and the swallow
property at the genuinely pending state reached by that open, with the
swallowed input being the up arrow. -/
theorem c7_confirmation_gate_witness :
    coreObs (hideExitConfirmation (showExitConfirmation NewApp)) = coreObs NewApp
    ∧ handleKeyEvent (showExitConfirmation NewApp) Key.up
        = showExitConfirmation NewApp :=
  ⟨(c7_confirmation_gate NewApp Key.up).1,
   (c7_confirmation_gate (showExitConfirmation NewApp) Key.up).2 rfl
     (fun c h => Key.noConfusion h)⟩

theorem handleTreeNavigation_showingConfirm (a : App) (e : Key) :
    (handleTreeNavigation a e).showingConfirm = a.showingConfirm := by
  unfold handleTreeNavigation moveTreeUp moveTreeDown collapseOrMoveUp
    expandOrMoveDown exitTreeView toggleExpansion activateTreeItem
  cases e <;> dsimp only <;> (repeat' split) <;> rfl

/-- C10: in every reachable state the quit confirmation is pending only in
browsing mode — `showingConfirm = true` forces `inTreeView = false`: the
confirmation can only be opened from the module-browsing branch, and in the
tree q/Q exits the tree instead. -/
theorem c10_confirm_only_browsing (a : App) (h : Reachable a) :
    a.showingConfirm = true → a.inTreeView = false := by
  induction h with
  | init => exact fun hx => absurd hx (by decide)
  | step b e _ ih =>
    unfold handleKeyEvent
    by_cases hsc : b.showingConfirm = true
    · rw [if_pos hsc]
      cases e <;> dsimp only <;>
        first
          | exact ih
          | (split_ifs <;>
              first
                | exact fun _ => ih hsc
                | exact fun hx => absurd hx (by simp [hideExitConfirmation])
                | exact ih)
    · rw [if_neg hsc]
      split_ifs with h1 h2
      · exact ih
      · rw [handleTreeNavigation_showingConfirm]
        exact fun hx => absurd hx hsc
      · unfold moveToPreviousHover moveToNextHover enterTreeView showExitConfirmation
        cases e <;> dsimp only <;>
          first
            | exact ih
            | exact fun hx => absurd hx hsc
            | (split_ifs <;>
                first
                  | exact fun hx => absurd hx hsc
                  | exact fun _ => by simpa using h2)

/-- C10, witness: after pressing q from startup the confirmation is pending
and the state is not in tree mode. -/
theorem c10_confirm_only_browsing_witness :
    (handleKeyEvent NewApp (Key.rune 'q')).inTreeView = false :=
  c10_confirm_only_browsing (handleKeyEvent NewApp (Key.rune 'q'))
    (Reachable.step NewApp (Key.rune 'q') Reachable.init) rfl

theorem getProjectCount_eq3 (a : App)
    (hm : a.modules = ["SSH", "MySQL", "PostgreSQL", "Redis"])
    (hc : a.currentModule < 4) : getProjectCount a = 3 := by
  have h4 : a.currentModule = 0 ∨ a.currentModule = 1 ∨ a.currentModule = 2 ∨
      a.currentModule = 3 := by omega
  unfold getProjectCount getProjectList currentModuleName
  rw [hm]
  rcases h4 with h | h | h | h <;> rw [h] <;> rfl

theorem getProjectCount_congr (a b : App) (hmod : b.modules = a.modules)
    (hcm : b.currentModule = a.currentModule) :
    getProjectCount b = getProjectCount a := by
  unfold getProjectCount getProjectList currentModuleName
  rw [hmod, hcm]

theorem getEnvironmentCount_congr (a b : App)
    (hsp : b.selectedProject = a.selectedProject) :
    getEnvironmentCount b = getEnvironmentCount a := by
  unfold getEnvironmentCount
  rw [hsp]

theorem expandOrMoveDown_level2 (a : App) (h : a.treeLevel = 2) :
    expandOrMoveDown a = a := by
  unfold expandOrMoveDown
  rw [h]

theorem collapseOrMoveUp_level0 (a : App) (h : a.treeLevel = 0) :
    collapseOrMoveUp a = exitTreeView a := by
  unfold collapseOrMoveUp
  rw [h]

/-- The inductive invariant behind C4: the fixed module catalog, the module
index bounds, the level bound, and the claimed selection bounds. -/
def Inv (a : App) : Prop :=
  a.modules = ["SSH", "MySQL", "PostgreSQL", "Redis"]
  ∧ a.currentModule < 4
  ∧ a.hoveredModule < 4
  ∧ a.treeLevel ≤ 2
  ∧ a.selectedProject < getProjectCount a
  ∧ (1 ≤ a.treeLevel → a.selectedEnv < getEnvironmentCount a)
  ∧ (a.treeLevel = 2 → a.selectedConn < getConnectionCount a)

theorem Inv_of_fields (a b : App) (hmod : b.modules = a.modules)
    (hcm : b.currentModule = a.currentModule)
    (hhm : b.hoveredModule = a.hoveredModule)
    (htl : b.treeLevel = a.treeLevel)
    (hsp : b.selectedProject = a.selectedProject)
    (hse : b.selectedEnv = a.selectedEnv)
    (hsc : b.selectedConn = a.selectedConn)
    (h : Inv a) : Inv b := by
  obtain ⟨hm, hc, hh, hl, hp, he, hco⟩ := h
  refine ⟨?_, ?_, ?_, ?_, ?_, ?_, ?_⟩
  · rw [hmod]; exact hm
  · rw [hcm]; exact hc
  · rw [hhm]; exact hh
  · rw [htl]; exact hl
  · rw [hsp, getProjectCount_congr a b hmod hcm]; exact hp
  · rw [htl, hse, getEnvironmentCount_congr a b hsp]; exact he
  · rw [htl, hsc, getConnectionCount_eq]
    intro hg
    have h9 := hco hg
    rw [getConnectionCount_eq] at h9
    exact h9

theorem inv_moveTreeUp (a : App) (h : Inv a) : Inv (moveTreeUp a) := by
  obtain ⟨hm, hc, hh, hl, hp, he, hco⟩ := h
  have h3 : a.treeLevel = 0 ∨ a.treeLevel = 1 ∨ a.treeLevel = 2 := by omega
  rcases h3 with h0 | h0 | h0
  · rw [moveTreeUp_level0 a h0]
    split_ifs with hi
    · exact ⟨hm, hc, hh, hl, by show a.selectedProject - 1 < getProjectCount a; omega,
        fun hg => absurd (show 1 ≤ a.treeLevel from hg) (by omega),
        fun hg => absurd (show a.treeLevel = 2 from hg) (by omega)⟩
    · exact ⟨hm, hc, hh, hl, hp, he, hco⟩
  · rw [moveTreeUp_level1 a h0]
    split_ifs with hi
    · refine ⟨hm, hc, hh, hl, hp, fun _ => ?_,
        fun hg => absurd (show a.treeLevel = 2 from hg) (by omega)⟩
      show a.selectedEnv - 1 < getEnvironmentCount a
      have h9 := he (by omega)
      omega
    · exact ⟨hm, hc, hh, by show (0:Nat) ≤ 2; omega, hp,
        fun hg => absurd (show (1:Nat) ≤ 0 from hg) (by omega),
        fun hg => absurd (show (0:Nat) = 2 from hg) (by omega)⟩
  · rw [moveTreeUp_level2 a h0]
    split_ifs with hi
    · refine ⟨hm, hc, hh, hl, hp, fun _ => he (by omega), fun _ => ?_⟩
      show a.selectedConn - 1 < getConnectionCount a
      have h9 := hco h0
      omega
    · exact ⟨hm, hc, hh, by show (1:Nat) ≤ 2; omega, hp, fun _ => he (by omega),
        fun hg => absurd (show (1:Nat) = 2 from hg) (by omega)⟩

theorem inv_moveTreeDown (a : App) (h : Inv a) : Inv (moveTreeDown a) := by
  obtain ⟨hm, hc, hh, hl, hp, he, hco⟩ := h
  have h3 : a.treeLevel = 0 ∨ a.treeLevel = 1 ∨ a.treeLevel = 2 := by omega
  rcases h3 with h0 | h0 | h0
  · rw [moveTreeDown_level0 a h0]
    split_ifs with hi
    · exact ⟨hm, hc, hh, hl, by show a.selectedProject + 1 < getProjectCount a; omega,
        fun hg => absurd (show 1 ≤ a.treeLevel from hg) (by omega),
        fun hg => absurd (show a.treeLevel = 2 from hg) (by omega)⟩
    · exact ⟨hm, hc, hh, hl, hp, he, hco⟩
  · rw [moveTreeDown_level1 a h0]
    split_ifs with hi
    · exact ⟨hm, hc, hh, hl, hp,
        fun _ => by show a.selectedEnv + 1 < getEnvironmentCount a; omega,
        fun hg => absurd (show a.treeLevel = 2 from hg) (by omega)⟩
    · exact ⟨hm, hc, hh, by show (2:Nat) ≤ 2; omega, hp, fun _ => he (by omega),
        fun _ => by
          show (0:Nat) < getConnectionCount a
          rw [getConnectionCount_eq]
          omega⟩
  · rw [moveTreeDown_level2 a h0]
    split_ifs with hi
    · exact ⟨hm, hc, hh, hl, hp, fun _ => he (by omega),
        fun _ => by show a.selectedConn + 1 < getConnectionCount a; omega⟩
    · exact ⟨hm, hc, hh, hl, hp, he, hco⟩

theorem inv_collapseOrMoveUp (a : App) (h : Inv a) : Inv (collapseOrMoveUp a) := by
  have hl := h.2.2.2.1
  have h3 : a.treeLevel = 0 ∨ a.treeLevel = 1 ∨ a.treeLevel = 2 := by omega
  obtain ⟨hm, hc, hh, _, hp, he, hco⟩ := h
  rcases h3 with h0 | h0 | h0
  · rw [collapseOrMoveUp_level0 a h0]
    exact ⟨hm, hc, hh, hl, hp, he, hco⟩
  · rw [collapseOrMoveUp_level1 a h0]
    exact ⟨hm, hc, hh, by show (0:Nat) ≤ 2; omega, hp,
      fun hg => absurd (show (1:Nat) ≤ 0 from hg) (by omega),
      fun hg => absurd (show (0:Nat) = 2 from hg) (by omega)⟩
  · rw [collapseOrMoveUp_level2 a h0]
    exact ⟨hm, hc, hh, by show (1:Nat) ≤ 2; omega, hp, fun _ => he (by omega),
      fun hg => absurd (show (1:Nat) = 2 from hg) (by omega)⟩

theorem inv_expandOrMoveDown (a : App) (h : Inv a) : Inv (expandOrMoveDown a) := by
  have hl := h.2.2.2.1
  have h3 : a.treeLevel = 0 ∨ a.treeLevel = 1 ∨ a.treeLevel = 2 := by omega
  obtain ⟨hm, hc, hh, _, hp, he, hco⟩ := h
  rcases h3 with h0 | h0 | h0
  · rw [expandOrMoveDown_level0 a h0]
    exact ⟨hm, hc, hh, by show (1:Nat) ≤ 2; omega, hp,
      fun _ => getEnvironmentCount_pos _,
      fun hg => absurd (show (1:Nat) = 2 from hg) (by omega)⟩
  · rw [expandOrMoveDown_level1 a h0]
    exact ⟨hm, hc, hh, by show (2:Nat) ≤ 2; omega, hp, fun _ => he (by omega),
      fun _ => getConnectionCount_pos _⟩
  · rw [expandOrMoveDown_level2 a h0]
    exact ⟨hm, hc, hh, hl, hp, he, hco⟩

theorem inv_moveToPreviousHover (a : App) (h : Inv a) :
    Inv (moveToPreviousHover a) := by
  obtain ⟨hm, hc, hh, hl, hp, he, hco⟩ := h
  unfold moveToPreviousHover
  split_ifs with hi
  · exact ⟨hm, hc, by show a.hoveredModule - 1 < 4; omega, hl, hp, he, hco⟩
  · exact ⟨hm, hc, hh, hl, hp, he, hco⟩

theorem inv_moveToNextHover (a : App) (h : Inv a) : Inv (moveToNextHover a) := by
  obtain ⟨hm, hc, hh, hl, hp, he, hco⟩ := h
  unfold moveToNextHover
  split_ifs with hi
  · have hlen : a.modules.length = 4 := by rw [hm]; rfl
    exact ⟨hm, hc, by show a.hoveredModule + 1 < 4; omega, hl, hp, he, hco⟩
  · exact ⟨hm, hc, hh, hl, hp, he, hco⟩

theorem inv_enterTreeView (a : App) (h : Inv a) : Inv (enterTreeView a) := by
  obtain ⟨hm, hc, hh, hl, hp, he, hco⟩ := h
  have h3 : getProjectCount (enterTreeView a) = 3 := getProjectCount_eq3 _ hm hh
  exact ⟨hm, hh, hh, by show (0:Nat) ≤ 2; omega,
    by show (0:Nat) < getProjectCount (enterTreeView a); omega,
    fun hg => absurd (show (1:Nat) ≤ 0 from hg) (by omega),
    fun hg => absurd (show (0:Nat) = 2 from hg) (by omega)⟩

theorem inv_handleTreeNavigation (a : App) (e : Key) (h : Inv a) :
    Inv (handleTreeNavigation a e) := by
  unfold handleTreeNavigation
  cases e <;> dsimp only <;>
    first
      | exact inv_moveTreeUp a h
      | exact inv_moveTreeDown a h
      | exact inv_collapseOrMoveUp a h
      | exact inv_expandOrMoveDown a h
      | (split_ifs <;>
          first
            | exact inv_moveTreeUp a h
            | exact inv_moveTreeDown a h
            | exact inv_collapseOrMoveUp a h
            | exact inv_expandOrMoveDown a h
            | exact Inv_of_fields a _ rfl rfl rfl rfl rfl rfl rfl h
            | exact h)
      | exact Inv_of_fields a _ rfl rfl rfl rfl rfl rfl rfl h
      | exact h

theorem inv_handleKeyEvent (a : App) (e : Key) (h : Inv a) :
    Inv (handleKeyEvent a e) := by
  unfold handleKeyEvent
  split_ifs with h1 h2 h3
  · cases e <;> dsimp only <;>
      first
        | (split_ifs <;>
            first
              | exact Inv_of_fields a _ rfl rfl rfl rfl rfl rfl rfl h
              | exact h)
        | exact h
  · exact h
  · exact inv_handleTreeNavigation a e h
  · cases e <;> dsimp only <;>
      first
        | exact inv_moveToPreviousHover a h
        | exact inv_moveToNextHover a h
        | exact inv_enterTreeView a h
        | (split_ifs <;>
            first
              | exact inv_moveToPreviousHover a h
              | exact inv_moveToNextHover a h
              | exact inv_enterTreeView a h
              | exact Inv_of_fields a _ rfl rfl rfl rfl rfl rfl rfl h
              | exact h)
        | exact h

/-- C4: in every state reachable from startup by any sequence of key events
(tree entry, moves, expand/collapse, toggles, hover and commit included),
`selectedProject` is below the project count of the current module; when the
active level is Environment or Connection, `selectedEnv` is below the
environment count of the selected project; and at the Connection level
`selectedConn` is below the connection count. -/
theorem c4_reachable_bounds (a : App) (h : Reachable a) :
    a.selectedProject < getProjectCount a
    ∧ (1 ≤ a.treeLevel → a.selectedEnv < getEnvironmentCount a)
    ∧ (a.treeLevel = 2 → a.selectedConn < getConnectionCount a) := by
  have hi : Inv a := by
    induction h with
    | init => refine ⟨rfl, ?_, ?_, ?_, ?_, ?_, ?_⟩ <;> decide
    | step b e _ ih => exact inv_handleKeyEvent b e ih
  exact ⟨hi.2.2.2.2.1, hi.2.2.2.2.2.1, hi.2.2.2.2.2.2⟩

/-- C4, witness: the bounds at the reachable state obtained by hovering right
to MySQL and entering the tree. -/
theorem c4_reachable_bounds_witness :
    (handleKeyEvent (handleKeyEvent NewApp Key.right) Key.enter).selectedProject
        < getProjectCount (handleKeyEvent (handleKeyEvent NewApp Key.right) Key.enter)
    ∧ (1 ≤ (handleKeyEvent (handleKeyEvent NewApp Key.right) Key.enter).treeLevel →
        (handleKeyEvent (handleKeyEvent NewApp Key.right) Key.enter).selectedEnv
          < getEnvironmentCount (handleKeyEvent (handleKeyEvent NewApp Key.right) Key.enter))
    ∧ ((handleKeyEvent (handleKeyEvent NewApp Key.right) Key.enter).treeLevel = 2 →
        (handleKeyEvent (handleKeyEvent NewApp Key.right) Key.enter).selectedConn
          < getConnectionCount (handleKeyEvent (handleKeyEvent NewApp Key.right) Key.enter)) :=
  c4_reachable_bounds (handleKeyEvent (handleKeyEvent NewApp Key.right) Key.enter)
    (Reachable.step (handleKeyEvent NewApp Key.right) Key.enter
      (Reachable.step NewApp Key.right Reachable.init))

end ConnectionManager
